import Mathlib

set_option maxRecDepth 8192

/- Verification of the R3000A CPU core header (src/core/r3000a.h) of PCSX-Redux:
   instruction-cache emulation, delayed-load hazard buffers, interrupt
   scheduling, shell-reached milestone signaling, and kernel-call interception.
   Machine integers are modelled as Nat with explicit bounds and reductions
   (x >> 24 becomes x / 0x1000000, x & 0xfff becomes x % 0x1000,
   x & ~0xf becomes x - x % 16, valid for the uint32 ranges involved).
   The host is little-endian, so SWAP_LE32 is the identity. -/

/-- Stores the 32-bit value v at byte offset off of a byte array, little-endian.
Models the C++ pattern *(uint32_t *)(arr + off) = v on a little-endian host. -/
def wr32 (a : Nat → Nat) (off v : Nat) : Nat → Nat := fun i =>
  if i = off then v % 0x100
  else if i = off + 1 then v / 0x100 % 0x100
  else if i = off + 2 then v / 0x10000 % 0x100
  else if i = off + 3 then v / 0x1000000 % 0x100
  else a i

/-- Reads the 32-bit value at byte offset off of a byte array, little-endian.
Models the C++ pattern *(uint32_t *)(arr + off) on a little-endian host. -/
def rd32 (a : Nat → Nat) (off : Nat) : Nat :=
  a off + 0x100 * a (off + 1) + 0x10000 * a (off + 2) + 0x1000000 * a (off + 3)

/-- The instruction-cache state: the two byte arrays
uint8_t iCacheAddr[0x1000] (tags) and uint8_t iCacheCode[0x1000] (words)
of psxRegisters, modelled as byte maps. -/
structure ICache where
  iCacheAddr : Nat → Nat
  iCacheCode : Nat → Nat

/-- R3000Acpu::invalidateCache: memset of both arrays with 0xff. -/
def invalidateCache : ICache :=
  { iCacheAddr := fun _ => 0xff, iCacheCode := fun _ => 0xff }

/-- R3000Acpu::flushICacheLine(pc): for banks 0x00 and 0x80, writes the
uint32 sentinel 0xff into the four tag words and four code words of the
16-byte-aligned cache line containing pc & 0xfff. -/
def flushICacheLine (c : ICache) (pc : Nat) : ICache :=
  -- uint32_t pcBank = pc >> 24;
  if pc / 0x1000000 = 0x00 ∨ pc / 0x1000000 = 0x80 then
    -- uint32_t pcCache = pc & 0xfff; pcCache &= ~0xf;
    let pcCache := pc % 0x1000 - pc % 0x1000 % 16
    { iCacheAddr := wr32 (wr32 (wr32 (wr32 c.iCacheAddr pcCache 0xff)
        (pcCache + 4) 0xff) (pcCache + 8) 0xff) (pcCache + 12) 0xff,
      iCacheCode := wr32 (wr32 (wr32 (wr32 c.iCacheCode pcCache 0xff)
        (pcCache + 4) 0xff) (pcCache + 8) 0xff) (pcCache + 12) 0xff }
  else c

/-- Result of one R3000Acpu::readICache call: the returned word, the cache
state afterwards, the sequence of instruction-typed memory reads issued
(calls to g_emulator->m_mem->read32(addr, Memory::ReadType::Instr), in
order), and whether the cache-hit branch was taken. -/
structure FetchResult where
  value : Nat
  cache : ICache
  reads : List Nat
  hit : Bool

/-- R3000Acpu::readICache(pc) over a pure memory mem : address ↦ word
(modelling read32 with ReadType::Instr). For banks 0x00 and 0x80: on tag
match, returns the cached word with no memory read; on mismatch, writes the
four tag words of the line, reads and writes the four code words of the
line, then falls through to the final default read of pc itself. All other
banks go straight to the final default read. -/
def readICache (mem : Nat → Nat) (c : ICache) (pc : Nat) : FetchResult :=
  -- uint32_t pcBank = pc >> 24;
  if pc / 0x1000000 = 0x00 ∨ pc / 0x1000000 = 0x80 then
    -- uint32_t pcOffset = pc & 0xffffff; uint32_t pcCache = pc & 0xfff;
    let pcOffset := pc % 0x1000000
    let pcCache := pc % 0x1000
    if rd32 c.iCacheAddr pcCache = pcOffset then
      -- Cache hit - return last opcode used
      { value := rd32 c.iCacheCode pcCache, cache := c, reads := [], hit := true }
    else
      -- Cache miss - cache line is 4 words wide: pcOffset &= ~0xf; pcCache &= ~0xf;
      let pcOffsetA := pcOffset - pcOffset % 16
      let pcCacheA := pcCache - pcCache % 16
      -- address line
      let iAddr := wr32 (wr32 (wr32 (wr32 c.iCacheAddr pcCacheA pcOffsetA)
        (pcCacheA + 4) (pcOffsetA + 4)) (pcCacheA + 8) (pcOffsetA + 8))
        (pcCacheA + 12) (pcOffsetA + 12)
      -- opcode line: pcOffset = pc & ~0xf; reads issued through read32(..., Instr)
      let pcA := pc - pc % 16
      let iCode := wr32 (wr32 (wr32 (wr32 c.iCacheCode pcCacheA (mem pcA))
        (pcCacheA + 4) (mem (pcA + 4))) (pcCacheA + 8) (mem (pcA + 8)))
        (pcCacheA + 12) (mem (pcA + 12))
      -- falls through to the default read of pc itself
      { value := mem pc, cache := { iCacheAddr := iAddr, iCacheCode := iCode },
        reads := [pcA, pcA + 4, pcA + 8, pcA + 12, pc], hit := false }
  else
    -- default
    { value := mem pc, cache := c, reads := [pc], hit := false }

/-- Modelled from the spec: the cache effect of the engine's
Clear(addr, size) entry point, whose implementations live in the backend
sources (not part of the core header): it invalidates the instruction-cache
line of every address of the overwritten range [addr, addr + size) via
flushICacheLine. -/
def clearRange (c : ICache) (addr : Nat) : Nat → ICache
  | 0 => c
  | size + 1 => clearRange (flushICacheLine c addr) (addr + 1) size

/-- One entry of R3000Acpu::m_delayedLoadInfo[2]: target register index,
pending value, merge mask, plus the delayed-PC sub-slot. -/
structure DelayedLoadInfo where
  index : Nat
  value : Nat
  mask : Nat
  pcValue : Nat
  active : Bool
  pcActive : Bool
  fromLink : Bool

/-- Default-initialized delayed-load slot, as in the in-class initializers. -/
def initDelayedLoadInfo : DelayedLoadInfo :=
  { index := 0, value := 0, mask := 0, pcValue := 0,
    active := false, pcActive := false, fromLink := false }

/-- The register file and hazard buffers of R3000Acpu relevant to the
delayed-load machinery: GPR.r (34 words), the two alternating slots
m_delayedLoadInfo[2] and the selector m_currentDelayedLoad. -/
structure CpuState where
  gpr : Nat → Nat
  delayedLoadInfo : Fin 2 → DelayedLoadInfo
  currentDelayedLoad : Fin 2

/-- A CpuState with zeroed registers and inactive slots. -/
def initCpuState : CpuState :=
  { gpr := fun _ => 0, delayedLoadInfo := fun _ => initDelayedLoadInfo,
    currentDelayedLoad := 0 }

/-- R3000Acpu::delayedLoadRef(reg, mask): aborts (None) when reg >= 32,
otherwise marks the current slot active with the given index and mask.
The returned reference is the slot's value field; writing through it is
modelled by delayedLoadW below. -/
def delayedLoadRef (s : CpuState) (reg mask : Nat) : Option CpuState :=
  if 32 ≤ reg then none
  else
    let d := s.delayedLoadInfo s.currentDelayedLoad
    let d' := { d with active := true, index := reg, mask := mask }
    some { s with delayedLoadInfo := Function.update s.delayedLoadInfo s.currentDelayedLoad d' }

/-- R3000Acpu::delayedLoad(reg, value, mask): obtains the reference via
delayedLoadRef, then stores value through it. -/
def delayedLoadW (s : CpuState) (reg value mask : Nat) : Option CpuState :=
  (delayedLoadRef s reg mask).map fun s' =>
    let d := s'.delayedLoadInfo s'.currentDelayedLoad
    let d' := { d with value := value }
    { s' with delayedLoadInfo := Function.update s'.delayedLoadInfo s'.currentDelayedLoad d' }

/-- R3000Acpu::flushCurrentDelayedLoad(): when the current slot is active,
commits reg = (GPR.r[index] & mask) | value into GPR.r[index] and
deactivates the slot. -/
def flushCurrentDelayedLoad (s : CpuState) : CpuState :=
  let d := s.delayedLoadInfo s.currentDelayedLoad
  if d.active then
    let d' := { d with active := false }
    { s with
      gpr := Function.update s.gpr d.index ((s.gpr d.index &&& d.mask) ||| d.value),
      delayedLoadInfo := Function.update s.delayedLoadInfo s.currentDelayedLoad d' }
  else s

/-- Bounded binary logarithm, structural in the fuel (32 suffices for any
uint32 value): log2fuel 32 n is Nat.log2 n for n < 2^32. -/
def log2fuel : Nat → Nat → Nat
  | 0, _ => 0
  | fuel + 1, n => if n < 2 then 0 else log2fuel fuel (n / 2) + 1

/-- Models the integer value of the C++ expression uint64_t(eCycle * 1.0f)
for a uint32 eCycle: the uint32 → float conversion rounds to the nearest
IEEE-754 binary32 value (24-bit significand, ties to even), the multiply by
the default scale factor 1.0f is exact, and the conversion to uint64_t of
the resulting non-negative integral float is exact. -/
def cvtF32 (n : Nat) : Nat :=
  if n < 0x1000000 then n
  else
    let e := log2fuel 32 n - 23
    let q := n / 2 ^ e
    let r := n % 2 ^ e
    let half := 2 ^ (e - 1)
    (if half < r ∨ (r = half ∧ q % 2 = 1) then q + 1 else q) * 2 ^ e

/-- The interrupt-scheduling state inside psxRegisters: the uint64 cycle
counter, the uint32 armed-bit word interrupt, the deadline table
intTargets[32] and the cached lowestTarget. -/
structure IntState where
  cycle : Nat
  interrupt : Nat
  intTargets : Nat → Nat
  lowestTarget : Nat

/-- R3000Acpu::scheduleInterrupt(interrupt, eCycle) with the default
m_interruptScales (all 1.0f, per the in-class initializer): returns
unchanged when the source is already armed; otherwise computes
target = cycle + uint64_t(eCycle * 1.0f) (uint64 arithmetic, hence
mod 2^64), arms the bit, stores the deadline, and lowers lowestTarget
when the new target is smaller. -/
def scheduleInterrupt (s : IntState) (intr eCycle : Nat) : IntState :=
  if s.interrupt &&& (1 <<< intr) ≠ 0 then s
  else
    let target := (s.cycle + cvtF32 eCycle) % 0x10000000000000000
    { s with
      interrupt := s.interrupt ||| (1 <<< intr),
      intTargets := Function.update s.intTargets intr target,
      lowestTarget := if target < s.lowestTarget then target else s.lowestTarget }

/-- R3000Acpu::hasToRun's milestone logic: given m_shellStarted and the
current pc, returns (signaled the ShellReached event this call,
m_shellStarted afterwards). The function's C++ return value,
g_system->running(), is an external flag independent of this logic. -/
def hasToRun (shellStarted : Bool) (pc : Nat) : Bool × Bool :=
  if shellStarted = false then
    if pc = 0x80030000 then (true, true) else (false, false)
  else (false, shellStarted)

/-- The sequence of ShellReached signals emitted by successive hasToRun
calls at the given sequence of pc values, threading m_shellStarted. -/
def shellSignals : Bool → List Nat → List Bool
  | _, [] => []
  | st, pc :: rest =>
    let r := hasToRun st pc
    r.1 :: shellSignals r.2 rest

/-- Concrete state for the C2 analysis: zeroed registers, current slot
holding a pending delayed load targeting register index 0 with value 5 and
mask 0 (the mask a plain load uses). -/
def c2State : CpuState :=
  { gpr := fun _ => 0,
    delayedLoadInfo := fun _ =>
      { initDelayedLoadInfo with active := true, index := 0, value := 5, mask := 0 },
    currentDelayedLoad := 0 }

/-- Concrete state for the C5 analysis: all registers 0xffffffff, current
slot holding index 1, mask 0xff, pending value 0. -/
def c5State : CpuState :=
  { gpr := fun _ => 0xffffffff,
    delayedLoadInfo := fun _ =>
      { initDelayedLoadInfo with active := true, index := 1, value := 0, mask := 0xff },
    currentDelayedLoad := 0 }

/-- Concrete scheduler state with source 3 armed (bit 3 of interrupt). -/
def armedState : IntState :=
  { cycle := 0, interrupt := 8, intTargets := fun _ => 0, lowestTarget := 100 }

/-- Concrete scheduler state with no source armed and lowestTarget at the
uint64 maximum. -/
def unarmedState : IntState :=
  { cycle := 0, interrupt := 0, intTargets := fun _ => 0,
    lowestTarget := 0xffffffffffffffff }

/-- The three kernel entry points intercepted by InterceptBIOS. -/
inductive KernelEntry
  | a0
  | b0
  | c0
deriving DecidableEq

/-- R3000Acpu::InterceptBIOS<checkPC>(currentPC): returns the semantic
handler dispatch (processA0KernelCall / processB0KernelCall) and the
logging handler dispatch (logA0/logB0/logC0KernelCall, gated by the
KernelLog debug setting), each as an optional (entry point, call number)
pair; the call number is r.t1 & 0xff. ramMask models
g_emulator->getRamMask(); requires currentPC < 2^32 for the base
computation (currentPC >> 20) & 0xffc to reduce to division and rounding. -/
def interceptBIOS (checkPC : Bool) (currentPC ramMask t1 : Nat) (kernelLog : Bool) :
    Option (KernelEntry × Nat) × Option (KernelEntry × Nat) :=
  -- const uint32_t pc = currentPC & g_emulator->getRamMask();
  let pc := currentPC &&& ramMask
  -- const uint32_t base = (currentPC >> 20) & 0xffc;
  let base := currentPC / 0x100000 - currentPC / 0x100000 % 4
  if checkPC ∧ ¬(base = 0x000 ∨ base = 0x800 ∨ base = 0xa00) then (none, none)
  else
    -- const uint32_t call = r.t1 & 0xff;
    let call := t1 % 0x100
    (if pc = 0xa0 then some (KernelEntry.a0, call)
     else if pc = 0xb0 then some (KernelEntry.b0, call)
     else none,
     if kernelLog then
       if pc = 0xa0 then some (KernelEntry.a0, call)
       else if pc = 0xb0 then some (KernelEntry.b0, call)
       else if pc = 0xc0 then some (KernelEntry.c0, call)
       else none
     else none)

/-- The four tag words of the cache line indexed by pc all hold the
sentinel 0xff left by flushICacheLine. -/
def lineTagsInvalid (c : ICache) (pc : Nat) : Prop :=
  ∀ r, r = 0 ∨ r = 4 ∨ r = 8 ∨ r = 12 →
    rd32 c.iCacheAddr (pc % 0x1000 - pc % 0x1000 % 16 + r) = 0xff

/-! Byte-array lemmas: reading a stored 32-bit word back, and disjointness
of 32-bit accesses at least 4 bytes apart. -/

theorem wr32_at0 (a : Nat → Nat) (off v : Nat) : wr32 a off v off = v % 0x100 := by
  simp [wr32]

theorem wr32_at1 (a : Nat → Nat) (off v : Nat) :
    wr32 a off v (off + 1) = v / 0x100 % 0x100 := by
  unfold wr32
  rw [if_neg (by omega), if_pos rfl]

theorem wr32_at2 (a : Nat → Nat) (off v : Nat) :
    wr32 a off v (off + 2) = v / 0x10000 % 0x100 := by
  unfold wr32
  rw [if_neg (by omega), if_neg (by omega), if_pos rfl]

theorem wr32_at3 (a : Nat → Nat) (off v : Nat) :
    wr32 a off v (off + 3) = v / 0x1000000 % 0x100 := by
  unfold wr32
  rw [if_neg (by omega), if_neg (by omega), if_neg (by omega), if_pos rfl]

theorem wr32_other (a : Nat → Nat) (off v i : Nat) (h0 : i ≠ off) (h1 : i ≠ off + 1)
    (h2 : i ≠ off + 2) (h3 : i ≠ off + 3) : wr32 a off v i = a i := by
  unfold wr32
  rw [if_neg h0, if_neg h1, if_neg h2, if_neg h3]

theorem rd32_wr32_self (a : Nat → Nat) (off v : Nat) :
    rd32 (wr32 a off v) off = v % 0x100000000 := by
  simp only [rd32, wr32_at0, wr32_at1, wr32_at2, wr32_at3]
  omega

theorem rd32_wr32_disjoint (a : Nat → Nat) (off v off' : Nat)
    (h : off + 4 ≤ off' ∨ off' + 4 ≤ off) :
    rd32 (wr32 a off v) off' = rd32 a off' := by
  simp only [rd32]
  rw [wr32_other a off v off' (by omega) (by omega) (by omega) (by omega),
      wr32_other a off v (off' + 1) (by omega) (by omega) (by omega) (by omega),
      wr32_other a off v (off' + 2) (by omega) (by omega) (by omega) (by omega),
      wr32_other a off v (off' + 3) (by omega) (by omega) (by omega) (by omega)]

theorem rd32_fill4 (a : Nat → Nat) (b v0 v4 v8 v12 r : Nat)
    (hr : r = 0 ∨ r = 4 ∨ r = 8 ∨ r = 12) :
    rd32 (wr32 (wr32 (wr32 (wr32 a b v0) (b + 4) v4) (b + 8) v8) (b + 12) v12) (b + r)
      = (if r = 0 then v0 else if r = 4 then v4 else if r = 8 then v8 else v12)
        % 0x100000000 := by
  rcases hr with h | h | h | h <;> subst h
  · rw [rd32_wr32_disjoint _ (b + 12) v12 (b + 0) (by omega),
        rd32_wr32_disjoint _ (b + 8) v8 (b + 0) (by omega),
        rd32_wr32_disjoint _ (b + 4) v4 (b + 0) (by omega)]
    rw [show b + 0 = b from rfl, rd32_wr32_self]
    simp
  · rw [rd32_wr32_disjoint _ (b + 12) v12 (b + 4) (by omega),
        rd32_wr32_disjoint _ (b + 8) v8 (b + 4) (by omega), rd32_wr32_self]
    simp
  · rw [rd32_wr32_disjoint _ (b + 12) v12 (b + 8) (by omega), rd32_wr32_self]
    simp
  · rw [rd32_wr32_self]
    simp

theorem rd32_fill4_other (a : Nat → Nat) (b v0 v4 v8 v12 p : Nat)
    (hp : p % 4 = 0) (hb : b % 4 = 0) (h0 : p ≠ b) (h4 : p ≠ b + 4) (h8 : p ≠ b + 8)
    (h12 : p ≠ b + 12) :
    rd32 (wr32 (wr32 (wr32 (wr32 a b v0) (b + 4) v4) (b + 8) v8) (b + 12) v12) p
      = rd32 a p := by
  rw [rd32_wr32_disjoint _ (b + 12) v12 p (by omega),
      rd32_wr32_disjoint _ (b + 8) v8 p (by omega),
      rd32_wr32_disjoint _ (b + 4) v4 p (by omega),
      rd32_wr32_disjoint a b v0 p (by omega)]

/-! Branch characterizations of readICache and flushICacheLine. -/

theorem readICache_uncached (mem : Nat → Nat) (c : ICache) (pc : Nat)
    (hb : ¬(pc / 0x1000000 = 0x00 ∨ pc / 0x1000000 = 0x80)) :
    readICache mem c pc = { value := mem pc, cache := c, reads := [pc], hit := false } := by
  simp only [readICache]
  rw [if_neg hb]

theorem readICache_hit (mem : Nat → Nat) (c : ICache) (pc : Nat)
    (hb : pc / 0x1000000 = 0x00 ∨ pc / 0x1000000 = 0x80)
    (hh : rd32 c.iCacheAddr (pc % 0x1000) = pc % 0x1000000) :
    readICache mem c pc
      = { value := rd32 c.iCacheCode (pc % 0x1000), cache := c, reads := [], hit := true } := by
  simp only [readICache]
  rw [if_pos hb, if_pos hh]

theorem readICache_miss_value (mem : Nat → Nat) (c : ICache) (pc : Nat)
    (hb : pc / 0x1000000 = 0x00 ∨ pc / 0x1000000 = 0x80)
    (hm : rd32 c.iCacheAddr (pc % 0x1000) ≠ pc % 0x1000000) :
    (readICache mem c pc).value = mem pc := by
  simp only [readICache]
  rw [if_pos hb, if_neg hm]

theorem readICache_miss_hit (mem : Nat → Nat) (c : ICache) (pc : Nat)
    (hb : pc / 0x1000000 = 0x00 ∨ pc / 0x1000000 = 0x80)
    (hm : rd32 c.iCacheAddr (pc % 0x1000) ≠ pc % 0x1000000) :
    (readICache mem c pc).hit = false := by
  simp only [readICache]
  rw [if_pos hb, if_neg hm]

theorem readICache_miss_reads (mem : Nat → Nat) (c : ICache) (pc : Nat)
    (hb : pc / 0x1000000 = 0x00 ∨ pc / 0x1000000 = 0x80)
    (hm : rd32 c.iCacheAddr (pc % 0x1000) ≠ pc % 0x1000000) :
    (readICache mem c pc).reads
      = [pc - pc % 16, pc - pc % 16 + 4, pc - pc % 16 + 8, pc - pc % 16 + 12, pc] := by
  simp only [readICache]
  rw [if_pos hb, if_neg hm]

theorem readICache_miss_tag (mem : Nat → Nat) (c : ICache) (pc : Nat)
    (hb : pc / 0x1000000 = 0x00 ∨ pc / 0x1000000 = 0x80)
    (hm : rd32 c.iCacheAddr (pc % 0x1000) ≠ pc % 0x1000000)
    (r : Nat) (hr : r = 0 ∨ r = 4 ∨ r = 8 ∨ r = 12) :
    rd32 (readICache mem c pc).cache.iCacheAddr (pc % 0x1000 - pc % 0x1000 % 16 + r)
      = pc % 0x1000000 - pc % 0x1000000 % 16 + r := by
  have hlt : pc % 0x1000000 - pc % 0x1000000 % 16 + r < 0x100000000 := by omega
  simp only [readICache]
  rw [if_pos hb, if_neg hm]
  rw [rd32_fill4 c.iCacheAddr (pc % 0x1000 - pc % 0x1000 % 16) _ _ _ _ r hr]
  rcases hr with h | h | h | h <;> subst h <;> simp <;> omega

theorem readICache_miss_code (mem : Nat → Nat) (c : ICache) (pc : Nat)
    (hb : pc / 0x1000000 = 0x00 ∨ pc / 0x1000000 = 0x80)
    (hm : rd32 c.iCacheAddr (pc % 0x1000) ≠ pc % 0x1000000)
    (r : Nat) (hr : r = 0 ∨ r = 4 ∨ r = 8 ∨ r = 12) :
    rd32 (readICache mem c pc).cache.iCacheCode (pc % 0x1000 - pc % 0x1000 % 16 + r)
      = mem (pc - pc % 16 + r) % 0x100000000 := by
  simp only [readICache]
  rw [if_pos hb, if_neg hm]
  rw [rd32_fill4 c.iCacheCode (pc % 0x1000 - pc % 0x1000 % 16) _ _ _ _ r hr]
  rcases hr with h | h | h | h <;> subst h <;> simp

theorem flushICacheLine_uncached (c : ICache) (pc : Nat)
    (hb : ¬(pc / 0x1000000 = 0x00 ∨ pc / 0x1000000 = 0x80)) :
    flushICacheLine c pc = c := by
  simp only [flushICacheLine]
  rw [if_neg hb]

theorem flushICacheLine_establishes (c : ICache) (pc : Nat)
    (hb : pc / 0x1000000 = 0x00 ∨ pc / 0x1000000 = 0x80) :
    lineTagsInvalid (flushICacheLine c pc) pc := by
  intro r hr
  simp only [flushICacheLine]
  rw [if_pos hb]
  rw [rd32_fill4 c.iCacheAddr (pc % 0x1000 - pc % 0x1000 % 16) _ _ _ _ r hr]
  rcases hr with h | h | h | h <;> subst h <;> simp

theorem flushICacheLine_preserves (c : ICache) (a pc : Nat)
    (h : lineTagsInvalid c pc) : lineTagsInvalid (flushICacheLine c a) pc := by
  by_cases hb : a / 0x1000000 = 0x00 ∨ a / 0x1000000 = 0x80
  · intro r hr
    simp only [flushICacheLine]
    rw [if_pos hb]
    set B := a % 0x1000 - a % 0x1000 % 16 with hB
    set p := pc % 0x1000 - pc % 0x1000 % 16 + r with hp
    have hp4 : p % 4 = 0 := by rcases hr with h' | h' | h' | h' <;> omega
    have hB4 : B % 4 = 0 := by omega
    by_cases hcase : p = B ∨ p = B + 4 ∨ p = B + 8 ∨ p = B + 12
    · rcases hcase with h' | h' | h' | h' <;> rw [h']
      · simpa using rd32_fill4 c.iCacheAddr B 0xff 0xff 0xff 0xff 0 (by omega)
      · simpa using rd32_fill4 c.iCacheAddr B 0xff 0xff 0xff 0xff 4 (by omega)
      · simpa using rd32_fill4 c.iCacheAddr B 0xff 0xff 0xff 0xff 8 (by omega)
      · simpa using rd32_fill4 c.iCacheAddr B 0xff 0xff 0xff 0xff 12 (by omega)
    · push_neg at hcase
      rw [rd32_fill4_other c.iCacheAddr B 0xff 0xff 0xff 0xff p hp4 hB4
        hcase.1 hcase.2.1 hcase.2.2.1 hcase.2.2.2]
      exact h r hr
  · rw [flushICacheLine_uncached c a hb]
    exact h

theorem clearRange_preserves (pc n : Nat) : ∀ (c : ICache) (addr : Nat),
    lineTagsInvalid c pc → lineTagsInvalid (clearRange c addr n) pc := by
  induction n with
  | zero => intro c addr h; simpa [clearRange] using h
  | succ k ih =>
    intro c addr h
    simp only [clearRange]
    exact ih _ _ (flushICacheLine_preserves c addr pc h)

theorem clearRange_establishes (pc : Nat)
    (hb : pc / 0x1000000 = 0x00 ∨ pc / 0x1000000 = 0x80) (n : Nat) :
    ∀ (c : ICache) (addr : Nat), addr ≤ pc → pc < addr + n →
      lineTagsInvalid (clearRange c addr n) pc := by
  induction n with
  | zero => intro c addr h1 h2; omega
  | succ k ih =>
    intro c addr h1 h2
    simp only [clearRange]
    by_cases he : pc = addr
    · subst he
      exact clearRange_preserves pc k _ _ (flushICacheLine_establishes c pc hb)
    · exact ih _ _ (by omega) (by omega)

/-- An invalidated line's tag word can never match the tag of a word-aligned
fetch address: the sentinel 0xff is 3 mod 4 while aligned tags are 0 mod 4. -/
theorem lineTagsInvalid_no_match (c : ICache) (pc : Nat) (hal : pc % 4 = 0)
    (hinv : lineTagsInvalid c pc) :
    rd32 c.iCacheAddr (pc % 0x1000) ≠ pc % 0x1000000 := by
  have h := hinv (pc % 16) (by omega)
  rw [show pc % 0x1000 - pc % 0x1000 % 16 + pc % 16 = pc % 0x1000 from by omega] at h
  omega

/-! Claim theorems. -/

/-- Claim C1, counterexample: at the cacheable address 0x80000000 with a
fully invalidated cache (a tag mismatch), the fill issues five
instruction-typed reads, not four, and its final element re-reads the
requested address 0x80000000 even though the fill just made it resident —
refuting "four reads total, never re-reading an address already resident". -/
theorem c1_counterexample :
    (readICache (fun _ => 0) invalidateCache 0x80000000).reads
      = [0x80000000, 0x80000004, 0x80000008, 0x8000000c, 0x80000000] ∧
    ¬(readICache (fun _ => 0) invalidateCache 0x80000000).reads.length = 4 := by
  constructor
  · decide
  · decide

/-- Claim C1 (amended): for every fetch of a cacheable address (bank 0x00 or
0x80) whose cache tag does not match, readICache fills the four consecutive
aligned words of the containing line (tags and opcode words), issuing one
instruction-typed read per word of the line, and then issues a fifth
instruction-typed read of the requested address itself — five reads total,
with the requested address read twice — and returns the value of that final
direct read. -/
theorem c1_cache_fill (mem : Nat → Nat) (c : ICache) (pc : Nat)
    (hb : pc / 0x1000000 = 0x00 ∨ pc / 0x1000000 = 0x80)
    (hm : rd32 c.iCacheAddr (pc % 0x1000) ≠ pc % 0x1000000) :
    (readICache mem c pc).value = mem pc ∧
    (readICache mem c pc).reads
      = [pc - pc % 16, pc - pc % 16 + 4, pc - pc % 16 + 8, pc - pc % 16 + 12, pc] ∧
    (readICache mem c pc).hit = false ∧
    ∀ r, r = 0 ∨ r = 4 ∨ r = 8 ∨ r = 12 →
      rd32 (readICache mem c pc).cache.iCacheAddr (pc % 0x1000 - pc % 0x1000 % 16 + r)
        = pc % 0x1000000 - pc % 0x1000000 % 16 + r ∧
      rd32 (readICache mem c pc).cache.iCacheCode (pc % 0x1000 - pc % 0x1000 % 16 + r)
        = mem (pc - pc % 16 + r) % 0x100000000 :=
  ⟨readICache_miss_value mem c pc hb hm, readICache_miss_reads mem c pc hb hm,
    readICache_miss_hit mem c pc hb hm,
    fun r hr => ⟨readICache_miss_tag mem c pc hb hm r hr,
      readICache_miss_code mem c pc hb hm r hr⟩⟩

/-- Witness for c1_cache_fill: concrete cacheable miss at 0x80000000. -/
theorem c1_cache_fill_witness :
    rd32 invalidateCache.iCacheAddr (0x80000000 % 0x1000) ≠ 0x80000000 % 0x1000000 ∧
    (readICache (fun _ => 3) invalidateCache 0x80000000).value = 3 ∧
    (readICache (fun _ => 3) invalidateCache 0x80000000).reads
      = [0x80000000, 0x80000004, 0x80000008, 0x8000000c, 0x80000000] := by
  have h := c1_cache_fill (fun _ => 3) invalidateCache 0x80000000 (by decide) (by decide)
  exact ⟨by decide, h.1, by rw [h.2.1]⟩

/-- Claim C6: for every cache state, after the cache effect of
Clear(addr, size) — line invalidation over the range via flushICacheLine —
a fetch of any word-aligned address inside that range never takes the
cache-hit branch (the written sentinel tag 0xff is 3 mod 4 and so can never
match a word-aligned tag), returns the word freshly read from memory, and
issues a memory read of that address. -/
theorem c6_clear_then_fetch (mem : Nat → Nat) (c : ICache) (addr size pc : Nat)
    (hal : pc % 4 = 0) (h1 : addr ≤ pc) (h2 : pc < addr + size) :
    (readICache mem (clearRange c addr size) pc).hit = false ∧
    (readICache mem (clearRange c addr size) pc).value = mem pc ∧
    pc ∈ (readICache mem (clearRange c addr size) pc).reads := by
  by_cases hb : pc / 0x1000000 = 0x00 ∨ pc / 0x1000000 = 0x80
  · have hm := lineTagsInvalid_no_match (clearRange c addr size) pc hal
      (clearRange_establishes pc hb size c addr h1 h2)
    refine ⟨readICache_miss_hit mem _ pc hb hm, readICache_miss_value mem _ pc hb hm, ?_⟩
    rw [readICache_miss_reads mem _ pc hb hm]
    simp
  · rw [readICache_uncached mem _ pc hb]
    simp

/-- Witness for c6_clear_then_fetch: the line of 0x104 is first filled (so a
fetch would hit), then Clear over [0x100, 0x108) forces the next fetch of
0x104 to miss and re-read memory. -/
theorem c6_clear_then_fetch_witness :
    (0x104 : Nat) % 4 = 0 ∧ (0x100 : Nat) ≤ 0x104 ∧ (0x104 : Nat) < 0x100 + 8 ∧
    (readICache (fun _ => 9)
      (clearRange (readICache (fun _ => 9) invalidateCache 0x104).cache 0x100 8) 0x104).hit
      = false ∧
    (readICache (fun _ => 9)
      (clearRange (readICache (fun _ => 9) invalidateCache 0x104).cache 0x100 8) 0x104).value
      = 9 := by
  have h := c6_clear_then_fetch (fun _ => 9)
    (readICache (fun _ => 9) invalidateCache 0x104).cache 0x100 8 0x104
    (by decide) (by decide) (by decide)
  exact ⟨by decide, by decide, by decide, h.1, h.2.1⟩

/-- Claim C7, counterexample: for the non-cacheable address 0xbfc00000 (the
BIOS bank, not one of the two cacheable low-memory windows), a second fetch
with no intervening invalidation still issues a memory read, refuting the
claim's "for every address" quantification. -/
theorem c7_counterexample :
    (readICache (fun _ => 7)
      (readICache (fun _ => 7) invalidateCache 0xbfc00000).cache 0xbfc00000).reads ≠ [] := by
  decide

/-- Claim C7 (amended): for every word-aligned address of the cacheable
windows (bank 0x00 or 0x80), after a fetch returns word W, an immediately
repeated fetch with no intervening invalidation returns the identical W and
issues no memory read; non-cacheable addresses bypass the cache and re-read
memory on every fetch (see the counterexample). The hypothesis on mem
models read32 returning uint32. -/
theorem c7_cache_roundtrip (mem : Nat → Nat) (c : ICache) (pc : Nat)
    (hmem : ∀ a, mem a < 0x100000000)
    (hb : pc / 0x1000000 = 0x00 ∨ pc / 0x1000000 = 0x80)
    (hal : pc % 4 = 0) :
    (readICache mem (readICache mem c pc).cache pc).value = (readICache mem c pc).value ∧
    (readICache mem (readICache mem c pc).cache pc).reads = [] := by
  by_cases hh : rd32 c.iCacheAddr (pc % 0x1000) = pc % 0x1000000
  · simp only [readICache_hit mem c pc hb hh]
    exact ⟨trivial, trivial⟩
  · have htag : rd32 (readICache mem c pc).cache.iCacheAddr (pc % 0x1000)
        = pc % 0x1000000 := by
      have h := readICache_miss_tag mem c pc hb hh (pc % 16) (by omega)
      rw [show pc % 0x1000 - pc % 0x1000 % 16 + pc % 16 = pc % 0x1000 from by omega] at h
      rw [h]
      omega
    rw [readICache_hit mem (readICache mem c pc).cache pc hb htag]
    refine ⟨?_, rfl⟩
    show rd32 (readICache mem c pc).cache.iCacheCode (pc % 0x1000) = (readICache mem c pc).value
    have hcode := readICache_miss_code mem c pc hb hh (pc % 16) (by omega)
    rw [show pc % 0x1000 - pc % 0x1000 % 16 + pc % 16 = pc % 0x1000 from by omega] at hcode
    rw [show pc - pc % 16 + pc % 16 = pc from by omega] at hcode
    rw [hcode, Nat.mod_eq_of_lt (hmem pc), readICache_miss_value mem c pc hb hh]

/-- Witness for c7_cache_roundtrip: repeated fetch of the cacheable aligned
address 0x104 returns the same word with no further memory read. -/
theorem c7_cache_roundtrip_witness :
    (0x104 : Nat) % 4 = 0 ∧
    (readICache (fun _ => 7)
      (readICache (fun _ => 7) invalidateCache 0x104).cache 0x104).value
      = (readICache (fun _ => 7) invalidateCache 0x104).value ∧
    (readICache (fun _ => 7)
      (readICache (fun _ => 7) invalidateCache 0x104).cache 0x104).reads = [] := by
  have h := c7_cache_roundtrip (fun _ => 7) invalidateCache 0x104
    (fun a => by show (7 : Nat) < 0x100000000; decide) (by decide) (by decide)
  exact ⟨by decide, h.1, h.2⟩

/-- Claim C2, counterexample: committing a pending delayed load whose target
index is 0 (value 5, mask 0, the mask a plain load uses) writes 5 into
general-purpose register 0 — the write is not discarded, so register 0
subsequently reads as 5, not 0, refuting the hardware-enforced-zero claim
at this layer. -/
theorem c2_counterexample : (flushCurrentDelayedLoad c2State).gpr 0 ≠ 0 := by
  decide

/-- Claim C2 (amended): the delayed-load commit path does not special-case
register index 0: flushing an active slot targeting index 0 stores the
merged value (old & mask) | value into register 0 exactly as for any other
register, so the zero-register invariant is not enforced by
flushCurrentDelayedLoad (or delayedLoadRef, which accepts index 0); register
0 reads as zero only while no such commit has deposited a nonzero value. -/
theorem c2_zero_reg_write (s : CpuState)
    (ha : (s.delayedLoadInfo s.currentDelayedLoad).active = true)
    (hi : (s.delayedLoadInfo s.currentDelayedLoad).index = 0) :
    (flushCurrentDelayedLoad s).gpr 0
      = ((s.gpr 0 &&& (s.delayedLoadInfo s.currentDelayedLoad).mask)
        ||| (s.delayedLoadInfo s.currentDelayedLoad).value) := by
  simp only [flushCurrentDelayedLoad]
  rw [if_pos ha]
  dsimp only
  rw [hi, Function.update_same]

/-- Witness for c2_zero_reg_write: the concrete commit writes 5 into r0. -/
theorem c2_zero_reg_write_witness :
    (c2State.delayedLoadInfo c2State.currentDelayedLoad).active = true ∧
    (c2State.delayedLoadInfo c2State.currentDelayedLoad).index = 0 ∧
    (flushCurrentDelayedLoad c2State).gpr 0 = 5 := by
  refine ⟨by decide, by decide, ?_⟩
  rw [c2_zero_reg_write c2State (by decide) (by decide)]
  decide

/-- Claim C5, counterexample: with old register value 0xffffffff, mask 0xff
and pending value 0, the claim's reading ("bits selected by the mask are
replaced by the pending value, the rest preserved") predicts 0xffffff00,
but the code computes (0xffffffff & 0xff) | 0 = 0xff: the mask selects the
preserved bits, not the replaced ones. -/
theorem c5_counterexample : (flushCurrentDelayedLoad c5State).gpr 1 ≠ 0xffffff00 := by
  decide

/-- Claim C5 (amended): committing an active slot (index i, mask m, value v)
replaces register i by (old & m) | v — the mask selects the bits of the old
register that are preserved, and the pending value (which occupies the
complementary bits in the load instructions' usage) is OR-ed in — the slot
becomes inactive, and all other registers are unchanged. -/
theorem c5_flush_commit (s : CpuState)
    (ha : (s.delayedLoadInfo s.currentDelayedLoad).active = true) :
    (flushCurrentDelayedLoad s).gpr (s.delayedLoadInfo s.currentDelayedLoad).index
      = ((s.gpr (s.delayedLoadInfo s.currentDelayedLoad).index
          &&& (s.delayedLoadInfo s.currentDelayedLoad).mask)
        ||| (s.delayedLoadInfo s.currentDelayedLoad).value) ∧
    ((flushCurrentDelayedLoad s).delayedLoadInfo s.currentDelayedLoad).active = false ∧
    ∀ j, j ≠ (s.delayedLoadInfo s.currentDelayedLoad).index →
      (flushCurrentDelayedLoad s).gpr j = s.gpr j := by
  simp only [flushCurrentDelayedLoad]
  rw [if_pos ha]
  dsimp only
  refine ⟨Function.update_same _ _ _, ?_, ?_⟩
  · rw [Function.update_same]
  · intro j hj
    exact Function.update_noteq hj _ _

/-- Witness for c5_flush_commit at the concrete c5State. -/
theorem c5_flush_commit_witness :
    (c5State.delayedLoadInfo c5State.currentDelayedLoad).active = true ∧
    (flushCurrentDelayedLoad c5State).gpr 1 = 0xff ∧
    ((flushCurrentDelayedLoad c5State).delayedLoadInfo c5State.currentDelayedLoad).active
      = false ∧
    (flushCurrentDelayedLoad c5State).gpr 2 = 0xffffffff := by
  have h := c5_flush_commit c5State (by decide)
  refine ⟨by decide, h.1.trans (by decide), h.2.1, ?_⟩
  exact (h.2.2 2 (by decide)).trans (by decide)

/-- Claim C8: every hazard-buffer write through delayedLoadRef or
delayedLoad with a register index of 32 or more aborts (modelled as None),
and every such write with an index below 32 succeeds without aborting. -/
theorem c8_hazard_index_guard (s : CpuState) (reg value mask : Nat) :
    (32 ≤ reg → delayedLoadRef s reg mask = none ∧ delayedLoadW s reg value mask = none) ∧
    (reg < 32 → (delayedLoadRef s reg mask).isSome = true ∧
      (delayedLoadW s reg value mask).isSome = true) := by
  constructor
  · intro h
    constructor
    · simp only [delayedLoadRef]
      rw [if_pos h]
    · simp only [delayedLoadW, delayedLoadRef]
      rw [if_pos h]
      rfl
  · intro h
    constructor
    · simp only [delayedLoadRef]
      rw [if_neg (by omega)]
      rfl
    · simp only [delayedLoadW, delayedLoadRef]
      rw [if_neg (by omega)]
      rfl

/-- Witness for c8_hazard_index_guard: index 32 aborts, index 5 does not. -/
theorem c8_hazard_index_guard_witness :
    ((32 : Nat) ≤ 32 ∧ delayedLoadRef initCpuState 32 0 = none ∧
      delayedLoadW initCpuState 32 7 0 = none) ∧
    ((5 : Nat) < 32 ∧ (delayedLoadRef initCpuState 5 0).isSome = true ∧
      (delayedLoadW initCpuState 5 7 0).isSome = true) := by
  refine ⟨⟨by decide, ?_⟩, ⟨by decide, ?_⟩⟩
  · exact (c8_hazard_index_guard initCpuState 32 7 0).1 (by decide)
  · exact (c8_hazard_index_guard initCpuState 5 7 0).2 (by decide)

/-- Values below 2^24 are exactly representable in binary32, so the modelled
uint32 → float conversion is exact there. -/
theorem cvtF32_small (n : Nat) (h : n < 0x1000000) : cvtF32 n = n := by
  simp only [cvtF32]
  rw [if_pos h]

/-- Claim C3: calling scheduleInterrupt on an already-armed source is a
complete no-op — the whole scheduler state (armed bits, deadline table,
cached lowest deadline, cycle counter) is returned unchanged, preserving
the original deadline. -/
theorem c3_schedule_armed_noop (s : IntState) (intr eCycle : Nat)
    (h : s.interrupt &&& (1 <<< intr) ≠ 0) :
    scheduleInterrupt s intr eCycle = s := by
  simp only [scheduleInterrupt]
  rw [if_pos h]

/-- Witness for c3_schedule_armed_noop: source 3 armed, a second schedule
request with a different cycle count leaves the state untouched. -/
theorem c3_schedule_armed_noop_witness :
    armedState.interrupt &&& (1 <<< 3) ≠ 0 ∧
    scheduleInterrupt armedState 3 0xffffffff = armedState :=
  ⟨by decide, c3_schedule_armed_noop armedState 3 0xffffffff (by decide)⟩

/-- Claim C4, counterexample: with the default scale factor 1.0f,
scheduling the unarmed source 0 at cyclesFromNow = 16777217 = 2^24 + 1
stores the deadline 16777216, not currentCycle + 16777217: the uint32 value
is converted to float before the multiply, and 2^24 + 1 is not
representable in binary32 — refuting exactness for every 32-bit
cyclesFromNow. -/
theorem c4_counterexample :
    (scheduleInterrupt unarmedState 0 16777217).intTargets 0
      ≠ unarmedState.cycle + 16777217 := by
  decide

/-- Claim C4 (amended): for an unarmed source, scheduleInterrupt arms the
source's bit and stores deadline = (currentCycle + rnd32(cyclesFromNow))
mod 2^64, where rnd32 rounds the cyclesFromNow integer to the nearest
binary32-representable value (ties to even) as the uint32 → float
conversion does; the deadline equals currentCycle + cyclesFromNow exactly
whenever cyclesFromNow < 2^24; the cached minimum deadline is lowered to
the new deadline when smaller and kept otherwise; other sources' deadlines
and the cycle counter are unchanged. -/
theorem c4_schedule_unarmed (s : IntState) (intr eCycle : Nat)
    (h : s.interrupt &&& (1 <<< intr) = 0) :
    (scheduleInterrupt s intr eCycle).interrupt = (s.interrupt ||| (1 <<< intr)) ∧
    (scheduleInterrupt s intr eCycle).interrupt.testBit intr = true ∧
    (scheduleInterrupt s intr eCycle).intTargets intr
      = (s.cycle + cvtF32 eCycle) % 0x10000000000000000 ∧
    (eCycle < 0x1000000 →
      (scheduleInterrupt s intr eCycle).intTargets intr
        = (s.cycle + eCycle) % 0x10000000000000000) ∧
    (scheduleInterrupt s intr eCycle).lowestTarget
      = (if (s.cycle + cvtF32 eCycle) % 0x10000000000000000 < s.lowestTarget
        then (s.cycle + cvtF32 eCycle) % 0x10000000000000000 else s.lowestTarget) ∧
    (∀ j, j ≠ intr → (scheduleInterrupt s intr eCycle).intTargets j = s.intTargets j) ∧
    (scheduleInterrupt s intr eCycle).cycle = s.cycle := by
  have hni : ¬(s.interrupt &&& (1 <<< intr) ≠ 0) := by simpa using h
  simp only [scheduleInterrupt]
  rw [if_neg hni]
  dsimp only
  refine ⟨rfl, ?_, Function.update_same _ _ _, ?_, rfl, ?_, rfl⟩
  · rw [Nat.testBit_or]
    have hbit : (1 <<< intr).testBit intr = true := by
      rw [Nat.shiftLeft_eq, one_mul, Nat.testBit_two_pow_self]
    rw [hbit, Bool.or_true]
  · intro he
    rw [Function.update_same, cvtF32_small eCycle he]
  · intro j hj
    exact Function.update_noteq hj _ _

/-- Witness for c4_schedule_unarmed: scheduling unarmed source 3 at 100
cycles from cycle 0 arms bit 3, stores deadline 100 and lowers the cached
minimum to 100. -/
theorem c4_schedule_unarmed_witness :
    unarmedState.interrupt &&& (1 <<< 3) = 0 ∧
    (scheduleInterrupt unarmedState 3 100).interrupt.testBit 3 = true ∧
    (scheduleInterrupt unarmedState 3 100).intTargets 3 = 100 ∧
    (scheduleInterrupt unarmedState 3 100).lowestTarget = 100 := by
  have h := c4_schedule_unarmed unarmedState 3 100 (by decide)
  refine ⟨by decide, h.2.1, ?_, ?_⟩
  · rw [h.2.2.2.1 (by decide)]
    decide
  · rw [h.2.2.2.2.1]
    decide

/-- Once m_shellStarted is set, hasToRun never signals again. -/
theorem shellSignals_started (pcs : List Nat) :
    shellSignals true pcs = List.replicate pcs.length false := by
  induction pcs with
  | nil => rfl
  | cons p rest ih =>
    simp [shellSignals, hasToRun, ih, List.replicate_succ]

/-- Claim C9: across any sequence of hasToRun steps starting from the
initial m_shellStarted = false, the ShellReached milestone is signaled
exactly at the first step whose pc is 0x80030000 and at no other step —
even if pc equals 0x80030000 again later — and is never signaled at all
when no step reaches that pc. -/
theorem c9_shell_reached_once :
    (∀ pre post, (0x80030000 : Nat) ∉ pre →
      shellSignals false (pre ++ 0x80030000 :: post)
        = List.replicate pre.length false ++ true :: List.replicate post.length false) ∧
    (∀ pcs : List Nat, (0x80030000 : Nat) ∉ pcs →
      shellSignals false pcs = List.replicate pcs.length false) := by
  constructor
  · intro pre
    induction pre with
    | nil =>
      intro post _
      simp [shellSignals, hasToRun, shellSignals_started]
    | cons p rest ih =>
      intro post hpre
      have hp : ¬(p = 0x80030000) := by
        intro he
        subst he
        exact hpre (List.mem_cons_self _ _)
      have hrest : (0x80030000 : Nat) ∉ rest := fun hm => hpre (List.mem_cons_of_mem _ hm)
      simp only [List.cons_append, shellSignals, hasToRun]
      rw [if_pos trivial, if_neg hp]
      simp only [List.length_cons, List.replicate_succ, List.cons_append, List.append_eq]
      rw [ih post hrest]
  · intro pcs
    induction pcs with
    | nil => intro _; rfl
    | cons p rest ih =>
      intro h
      have hp : ¬(p = 0x80030000) := by
        intro he
        subst he
        exact h (List.mem_cons_self _ _)
      have hrest : (0x80030000 : Nat) ∉ rest := fun hm => h (List.mem_cons_of_mem _ hm)
      simp only [shellSignals, hasToRun]
      rw [if_pos trivial, if_neg hp]
      simp only [List.length_cons, List.replicate_succ]
      rw [ih hrest]

/-- Witness for c9_shell_reached_once: the signal fires exactly at the first
occurrence of 0x80030000 and not at the repeat occurrence two steps later,
and never fires on a sequence avoiding 0x80030000. -/
theorem c9_shell_reached_once_witness :
    ((0x80030000 : Nat) ∉ ([1, 2] : List Nat) ∧
      shellSignals false ([1, 2] ++ 0x80030000 :: [0x80030000, 3])
        = List.replicate 2 false ++ true :: List.replicate 2 false) ∧
    ((0x80030000 : Nat) ∉ ([7, 8, 9] : List Nat) ∧
      shellSignals false [7, 8, 9] = List.replicate 3 false) := by
  constructor
  · refine ⟨by decide, ?_⟩
    have h := c9_shell_reached_once.1 [1, 2] [0x80030000, 3] (by decide)
    simpa using h
  · refine ⟨by decide, ?_⟩
    have h := c9_shell_reached_once.2 [7, 8, 9] (by decide)
    simpa using h

/-- Claim C10: the kernel-call interception hook extracts the call number
as the low 8 bits of register t1, so any two t1 values congruent modulo 256
produce the identical semantic-handler and logging-handler dispatch at the
same intercepted entry point. -/
theorem c10_call_number_mod256 (checkPC : Bool) (currentPC ramMask t1 t1' : Nat)
    (kernelLog : Bool) (h : t1 % 0x100 = t1' % 0x100) :
    interceptBIOS checkPC currentPC ramMask t1 kernelLog
      = interceptBIOS checkPC currentPC ramMask t1' kernelLog := by
  simp only [interceptBIOS, h]

/-- Witness for c10_call_number_mod256: t1 = 0x134 and t1 = 0x234 agree
modulo 256 and dispatch identically at the 0xa0 entry point. -/
theorem c10_call_number_mod256_witness :
    (0x134 : Nat) % 0x100 = (0x234 : Nat) % 0x100 ∧
    interceptBIOS true 0xa0 0x1fffff 0x134 true
      = interceptBIOS true 0xa0 0x1fffff 0x234 true :=
  ⟨by decide, c10_call_number_mod256 true 0xa0 0x1fffff 0x134 0x234 true (by decide)⟩
